import Mathlib

/-!
# healer: configuration resolution and validation

A shallow embedding of `config.go` (package `healer`): the three configuration
records, their defaults, the validators `checkValid`, the key normaliser
`convertKey` and the override merger `GetConsumerConfig`.

Conventions of the embedding.

* A Go `string` is a Lean `String` (a sequence of Unicode code points); Go
  strings that are not valid UTF-8 are outside the model.
* Go `int`, `int16` and `int32` fields are `Int`; the code performs no
  arithmetic on them, and the range of the field is checked where the code
  checks it (when `json.Unmarshal` stores a number).
* The Go `error` interface is `Option GoError`: `none` is `nil`.
* A pointer result `*ConsumerConfig` is `Option ConsumerConfig`: `none` is `nil`.
-/

namespace Healer

/-! ## Errors -/

/-- The error values of the package: the six sentinels built with `errors.New`
in `config.go`, and the two kinds of error `encoding/json` hands back to
`GetConsumerConfig`. -/
inductive GoError where
  /-- Sentinel `errors.New("message.max.count must > 0")`. -/
  | messageMaxCountError
  /-- Sentinel `errors.New("flush.interval.ms must > 0")`. -/
  | flushIntervalMSError
  /-- Sentinel `errors.New("unknown compression type")`. -/
  | unknownCompressionType
  /-- Sentinel `errors.New("bootstrap servers not set")`. -/
  | bootstrapServersNotSet
  /-- Sentinel `errors.New("broker address not set in broker config")`. -/
  | brokerAddressNotSet
  /-- Sentinel `errors.New("group.id is empty")`. -/
  | emptyGroupID
  /-- What `json.Marshal` returns for a value it cannot encode. -/
  | unsupportedValue
  /-- What `json.Unmarshal` returns when the JSON value under the key `key`
  does not fit the Go type of the field it is decoded into. -/
  | unmarshalTypeError (key : String)
  deriving DecidableEq, Repr

/-- The text a sentinel was built with (`err.Error()`); the text of an error of
`encoding/json` depends on the offending value and is not modelled (`none`). -/
def GoError.Error : GoError → Option String
  | .messageMaxCountError => some "message.max.count must > 0"
  | .flushIntervalMSError => some "flush.interval.ms must > 0"
  | .unknownCompressionType => some "unknown compression type"
  | .bootstrapServersNotSet => some "bootstrap servers not set"
  | .brokerAddressNotSet => some "broker address not set in broker config"
  | .emptyGroupID => some "group.id is empty"
  | .unsupportedValue => none
  | .unmarshalTypeError _ => none

/-! ## ProducerConfig -/

/-- The record `ProducerConfig`. -/
structure ProducerConfig where
  BootstrapServers : String
  ClientID : String
  Acks : Int
  CompressionType : String
  BatchSize : Int
  MessageMaxCount : Int
  FlushIntervalMS : Int
  MetadataMaxAgeMS : Int
  FetchTopicMetaDataRetrys : Int
  ConnectionsMaxIdleMS : Int
  Retries : Int
  RequestTimeoutMS : Int
  deriving DecidableEq, Repr

/-- The record that the package variable `DefaultProducerConfig` points to when
the package is initialised; `BootstrapServers` is not listed in the literal and
so has the zero value `""`. -/
def DefaultProducerConfig : ProducerConfig :=
  { BootstrapServers := ""
    ClientID := "healer"
    Acks := 1
    CompressionType := "none"
    BatchSize := 16384
    MessageMaxCount := 1024
    FlushIntervalMS := 200
    MetadataMaxAgeMS := 300000
    FetchTopicMetaDataRetrys := 3
    ConnectionsMaxIdleMS := 540000
    Retries := 0
    RequestTimeoutMS := 30000 }

/-- The method `(*ProducerConfig).checkValid`. -/
def ProducerConfig.checkValid (config : ProducerConfig) : Option GoError :=
  if config.BootstrapServers = "" then
    some .bootstrapServersNotSet
  else if config.MessageMaxCount ≤ 0 then
    some .messageMaxCountError
  else if config.FlushIntervalMS ≤ 0 then
    some .flushIntervalMSError
  else if config.CompressionType = "none" then
    none
  else if config.CompressionType = "gzip" then
    none
  else if config.CompressionType = "snappy" then
    none
  else if config.CompressionType = "lz4" then
    none
  else
    some .unknownCompressionType

/-! ## BrokerConfig -/

/-- The record `BrokerConfig`. -/
structure BrokerConfig where
  ConnectTimeoutMS : Int
  TimeoutMS : Int
  TimeoutMSForEachAPI : List Int
  deriving DecidableEq, Repr

/-- The function `DefaultBrokerConfig`. -/
def DefaultBrokerConfig : BrokerConfig :=
  { ConnectTimeoutMS := 60000
    TimeoutMS := 30000
    TimeoutMSForEachAPI := [] }

/-- The method `(*BrokerConfig).checkValid`. -/
def BrokerConfig.checkValid (_c : BrokerConfig) : Option GoError :=
  none

/-! ## ConsumerConfig -/

/-- The record `ConsumerConfig`. -/
structure ConsumerConfig where
  BootstrapServers : String
  ClientID : String
  GroupID : String
  SessionTimeoutMS : Int
  FetchMaxWaitMS : Int
  FetchMaxBytes : Int
  FetchMinBytes : Int
  FromBeginning : Bool
  AutoCommit : Bool
  CommitAfterFetch : Bool
  AutoCommitIntervalMS : Int
  OffsetsStorage : Int
  ConnectTimeoutMS : Int
  TimeoutMS : Int
  deriving DecidableEq, Repr

/-- The function `DefaultConsumerConfig`; `BootstrapServers` is not listed in
the literal and so has the zero value `""`. -/
def DefaultConsumerConfig : ConsumerConfig :=
  { BootstrapServers := ""
    ClientID := "healer"
    GroupID := ""
    SessionTimeoutMS := 30000
    FetchMaxWaitMS := 100
    FetchMaxBytes := 10 * 1024 * 1024
    FetchMinBytes := 1
    FromBeginning := false
    AutoCommit := true
    CommitAfterFetch := false
    AutoCommitIntervalMS := 5000
    OffsetsStorage := 1
    ConnectTimeoutMS := 30000
    TimeoutMS := 60000 }

/-- The method `(*ConsumerConfig).checkValid`. -/
def ConsumerConfig.checkValid (config : ConsumerConfig) : Option GoError :=
  if config.BootstrapServers = "" then
    some .bootstrapServersNotSet
  else if config.GroupID = "" then
    some .emptyGroupID
  else
    none

/-! ## The Go library functions used by `convertKey`

`strings.Split`, `strings.Title` and `strings.Join` are taken from the Go
standard library. On ASCII their behaviour is fixed here; the Unicode tables
that `strings.Title` consults for code points above `0x7F` are a parameter. -/

/-- The parts of package `unicode` that `strings.Title` consults for code points
above `unicode.MaxASCII`. -/
structure UnicodeTables where
  /-- The table lookup `unicode.To(unicode.TitleCase, r)`. -/
  ToTitle : Char → Char
  /-- The predicate `unicode.IsLetter`. -/
  IsLetter : Char → Bool
  /-- The predicate `unicode.IsDigit`. -/
  IsDigit : Char → Bool
  /-- The predicate `unicode.IsSpace`. -/
  IsSpace : Char → Bool

/-- The function `unicode.ToTitle`: on ASCII, `a`..`z` lose `'a' - 'A'` and
every other code point is kept; above ASCII the table decides. -/
def ToTitle (u : UnicodeTables) (r : Char) : Char :=
  if r.toNat ≤ 0x7F then
    if 'a'.toNat ≤ r.toNat ∧ r.toNat ≤ 'z'.toNat then Char.ofNat (r.toNat - ('a'.toNat - 'A'.toNat))
    else r
  else u.ToTitle r

/-- The function `isSeparator` of package `strings`: ASCII letters, digits and
the underscore are not separators, every other ASCII code point is; above
ASCII, letters and digits are not separators and spaces are. -/
def isSeparator (u : UnicodeTables) (r : Char) : Bool :=
  if r.toNat ≤ 0x7F then
    if '0'.toNat ≤ r.toNat ∧ r.toNat ≤ '9'.toNat then false
    else if 'a'.toNat ≤ r.toNat ∧ r.toNat ≤ 'z'.toNat then false
    else if 'A'.toNat ≤ r.toNat ∧ r.toNat ≤ 'Z'.toNat then false
    else if r = '_' then false
    else true
  else if u.IsLetter r || u.IsDigit r then false
  else u.IsSpace r

/-- The mapping closure of `strings.Title`, with the remembered code point
`prev` made explicit: a code point that follows a separator is title-cased. -/
def Title.go (u : UnicodeTables) : Char → List Char → List Char
  | _, [] => []
  | prev, r :: rs =>
    (if isSeparator u prev then ToTitle u r else r) :: Title.go u r rs

/-- The function `strings.Title`; `prev` starts as a space. -/
def Title (u : UnicodeTables) (s : List Char) : List Char :=
  Title.go u ' ' s

/-- The function `strings.Split` for a separator of one code point: the
substrings between the occurrences of `sep`. -/
def Split (sep : Char) : List Char → List (List Char)
  | [] => [[]]
  | c :: cs =>
    if c = sep then [] :: Split sep cs
    else
      match Split sep cs with
      | [] => [[c]]
      | p :: ps => (c :: p) :: ps

/-- The function `strings.Join` for the empty separator. -/
def Join (parts : List (List Char)) : List Char :=
  parts.foldr (fun p acc => p ++ acc) []

/-! ## convertKey -/

/-- The statement `switch parts[len(parts)-1] { case "id": ...; case "ms": ... }`
of `convertKey`: the index expression fails on an empty slice (`none`), else the
last part is overwritten when it is `id` or `ms`. -/
def replaceLast : List (List Char) → Option (List (List Char))
  | [] => none
  | [last] =>
    if last = ['i', 'd'] then some [['I', 'D']]
    else if last = ['m', 's'] then some [['M', 'S']]
    else some [last]
  | p :: q :: ps => (replaceLast (q :: ps)).map (fun rest => p :: rest)

/-- The function `convertKey`; `none` stands for the run-time panic of an index
out of range. -/
def convertKey (u : UnicodeTables) (s : String) : Option String :=
  match replaceLast (Split '.' s.data) with
  | none => none
  | some parts => some (String.mk (Join (parts.map (Title u))))

/-! ## The override mapping and `encoding/json`

`GetConsumerConfig` hands its argument to `json.Marshal` and the bytes to
`json.Unmarshal`. The bytes are represented by the members of the JSON object
in the order `json.Marshal` writes them (increasing key order). -/

/-- A Go value held in an `interface{}` of the override mapping, as far as
`encoding/json` tells values apart. -/
inductive Value where
  /-- The value `nil`; JSON `null`. -/
  | null
  /-- A Go `bool`; JSON `true` or `false`. -/
  | bool (b : Bool)
  /-- A number whose JSON text is the integer literal of `n` (a value of a Go
  integer type, or a float with an integral value printed without exponent). -/
  | int (n : Int)
  /-- A number whose JSON text has a fraction or an exponent. -/
  | real
  /-- A Go `string`; a JSON string. -/
  | str (s : String)
  /-- A slice or array; a JSON array. -/
  | arr (xs : List Value)
  /-- A map with string keys or a struct; a JSON object. -/
  | obj (members : List (String × Value))
  /-- A value `json.Marshal` rejects (channel, function, complex number, NaN). -/
  | unsupported

/-- The type `map[string]interface{}`, as the list of its entries; the keys of
a Go map are pairwise distinct and its entries have no order. -/
abbrev GoMap := List (String × Value)

mutual
/-- Whether `json.Marshal` can encode the value: no rejected value occurs in it. -/
def Value.serializable : Value → Bool
  | .arr xs => serializableList xs
  | .obj members => serializableMembers members
  | .unsupported => false
  | _ => true
/-- Whether `json.Marshal` can encode every element. -/
def serializableList : List Value → Bool
  | [] => true
  | x :: xs => x.serializable && serializableList xs
/-- Whether `json.Marshal` can encode every member. -/
def serializableMembers : List (String × Value) → Bool
  | [] => true
  | (_, x) :: xs => x.serializable && serializableMembers xs
end

/-- Go's `<=` on strings: bytewise lexicographic order, which on valid UTF-8 is
the lexicographic order of the code points. -/
def stringLe : List Char → List Char → Bool
  | [], _ => true
  | _ :: _, [] => false
  | a :: as, b :: bs =>
    if a.toNat < b.toNat then true
    else if b.toNat < a.toNat then false
    else stringLe as bs

/-- One insertion step of the key sort of `json.Marshal`. -/
def insertEntry (e : String × Value) : List (String × Value) → List (String × Value)
  | [] => [e]
  | x :: xs => if stringLe e.1.data x.1.data then e :: x :: xs else x :: insertEntry e xs

/-- The key sort of `json.Marshal`: the entries of a map in increasing key order. -/
def sortEntries : List (String × Value) → List (String × Value)
  | [] => []
  | e :: es => insertEntry e (sortEntries es)

/-- The function `json.Marshal` on a `map[string]interface{}`: an error when a
value cannot be encoded, else the members of the object in increasing key
order. -/
def Marshal (config : GoMap) : Except GoError (List (String × Value)) :=
  if serializableMembers config then .ok (sortEntries config) else .error .unsupportedValue

/-- The fourteen fields of `ConsumerConfig`, in declaration order. -/
inductive Field where
  | BootstrapServers
  | ClientID
  | GroupID
  | SessionTimeoutMS
  | FetchMaxWaitMS
  | FetchMaxBytes
  | FetchMinBytes
  | FromBeginning
  | AutoCommit
  | CommitAfterFetch
  | AutoCommitIntervalMS
  | OffsetsStorage
  | ConnectTimeoutMS
  | TimeoutMS
  deriving DecidableEq, Repr

/-- The Go types of the fields of `ConsumerConfig`. -/
inductive Kind where
  | string
  | int32
  | int
  | bool
  deriving DecidableEq, Repr

/-- The fields of `ConsumerConfig` in declaration order. -/
def Field.all : List Field :=
  [.BootstrapServers, .ClientID, .GroupID, .SessionTimeoutMS, .FetchMaxWaitMS,
   .FetchMaxBytes, .FetchMinBytes, .FromBeginning, .AutoCommit, .CommitAfterFetch,
   .AutoCommitIntervalMS, .OffsetsStorage, .ConnectTimeoutMS, .TimeoutMS]

/-- The Go identifier of a field. -/
def Field.name : Field → String
  | .BootstrapServers => "BootstrapServers"
  | .ClientID => "ClientID"
  | .GroupID => "GroupID"
  | .SessionTimeoutMS => "SessionTimeoutMS"
  | .FetchMaxWaitMS => "FetchMaxWaitMS"
  | .FetchMaxBytes => "FetchMaxBytes"
  | .FetchMinBytes => "FetchMinBytes"
  | .FromBeginning => "FromBeginning"
  | .AutoCommit => "AutoCommit"
  | .CommitAfterFetch => "CommitAfterFetch"
  | .AutoCommitIntervalMS => "AutoCommitIntervalMS"
  | .OffsetsStorage => "OffsetsStorage"
  | .ConnectTimeoutMS => "ConnectTimeoutMS"
  | .TimeoutMS => "TimeoutMS"

/-- The `json` tag of a field: its external key. -/
def Field.tag : Field → String
  | .BootstrapServers => "bootstrap.servers"
  | .ClientID => "client.id"
  | .GroupID => "group.id"
  | .SessionTimeoutMS => "session.timeout.ms"
  | .FetchMaxWaitMS => "fetch.max.wait.ms"
  | .FetchMaxBytes => "fetch.max.bytes"
  | .FetchMinBytes => "fetch.min.bytes"
  | .FromBeginning => "frombeginning"
  | .AutoCommit => "auto.commit"
  | .CommitAfterFetch => "commit.after.fetch"
  | .AutoCommitIntervalMS => "auto.commit.interval.ms"
  | .OffsetsStorage => "offset.storage"
  | .ConnectTimeoutMS => "connect.timeout.ms"
  | .TimeoutMS => "timeout.ms"

/-- The Go type of a field. -/
def Field.kind : Field → Kind
  | .BootstrapServers => .string
  | .ClientID => .string
  | .GroupID => .string
  | .SessionTimeoutMS => .int32
  | .FetchMaxWaitMS => .int32
  | .FetchMaxBytes => .int32
  | .FetchMinBytes => .int32
  | .FromBeginning => .bool
  | .AutoCommit => .bool
  | .CommitAfterFetch => .bool
  | .AutoCommitIntervalMS => .int
  | .OffsetsStorage => .int
  | .ConnectTimeoutMS => .int
  | .TimeoutMS => .int

/-- Reading a field by reflection, as a value of the override mapping. -/
def ConsumerConfig.get (c : ConsumerConfig) : Field → Value
  | .BootstrapServers => .str c.BootstrapServers
  | .ClientID => .str c.ClientID
  | .GroupID => .str c.GroupID
  | .SessionTimeoutMS => .int c.SessionTimeoutMS
  | .FetchMaxWaitMS => .int c.FetchMaxWaitMS
  | .FetchMaxBytes => .int c.FetchMaxBytes
  | .FetchMinBytes => .int c.FetchMinBytes
  | .FromBeginning => .bool c.FromBeginning
  | .AutoCommit => .bool c.AutoCommit
  | .CommitAfterFetch => .bool c.CommitAfterFetch
  | .AutoCommitIntervalMS => .int c.AutoCommitIntervalMS
  | .OffsetsStorage => .int c.OffsetsStorage
  | .ConnectTimeoutMS => .int c.ConnectTimeoutMS
  | .TimeoutMS => .int c.TimeoutMS

/-- The reflective `SetString` on a field of kind string. -/
def ConsumerConfig.setString (c : ConsumerConfig) : Field → String → ConsumerConfig
  | .BootstrapServers, s => { c with BootstrapServers := s }
  | .ClientID, s => { c with ClientID := s }
  | .GroupID, s => { c with GroupID := s }
  | _, _ => c

/-- The reflective `SetInt` on a field of an integer kind. -/
def ConsumerConfig.setInt (c : ConsumerConfig) : Field → Int → ConsumerConfig
  | .SessionTimeoutMS, n => { c with SessionTimeoutMS := n }
  | .FetchMaxWaitMS, n => { c with FetchMaxWaitMS := n }
  | .FetchMaxBytes, n => { c with FetchMaxBytes := n }
  | .FetchMinBytes, n => { c with FetchMinBytes := n }
  | .AutoCommitIntervalMS, n => { c with AutoCommitIntervalMS := n }
  | .OffsetsStorage, n => { c with OffsetsStorage := n }
  | .ConnectTimeoutMS, n => { c with ConnectTimeoutMS := n }
  | .TimeoutMS, n => { c with TimeoutMS := n }
  | _, _ => c

/-- The reflective `SetBool` on a field of kind bool. -/
def ConsumerConfig.setBool (c : ConsumerConfig) : Field → Bool → ConsumerConfig
  | .FromBeginning, b => { c with FromBeginning := b }
  | .AutoCommit, b => { c with AutoCommit := b }
  | .CommitAfterFetch, b => { c with CommitAfterFetch := b }
  | _, _ => c

/-- Whether the integer `n` can be stored in a field of the kind: it parses as
an `int64` and does not overflow the field (`int` is 64 bits wide). -/
def Kind.holds : Kind → Int → Bool
  | .int32, n => decide (-2147483648 ≤ n ∧ n ≤ 2147483647)
  | .int, n => decide (-9223372036854775808 ≤ n ∧ n ≤ 9223372036854775807)
  | _, _ => false

/-- Whether two code points are equal under simple case folding, the first one
being ASCII: a letter matches its other case, `k` and `K` also match the Kelvin
sign U+212A, `s` and `S` also match the long s U+017F. -/
def foldsTo (c r : Char) : Bool :=
  r = c
  || (decide ('A'.toNat ≤ c.toNat ∧ c.toNat ≤ 'Z'.toNat) && r.toNat = c.toNat + 32)
  || (decide ('a'.toNat ≤ c.toNat ∧ c.toNat ≤ 'z'.toNat) && r.toNat + 32 = c.toNat)
  || ((c = 'k' || c = 'K') && r.toNat = 0x212A)
  || ((c = 's' || c = 'S') && r.toNat = 0x017F)

/-- The function `bytes.EqualFold` for an ASCII first argument (every tag of
`ConsumerConfig` is ASCII): code point by code point, equal under simple case
folding. -/
def equalFold : List Char → List Char → Bool
  | [], [] => true
  | c :: cs, r :: rs => foldsTo c r && equalFold cs rs
  | _, _ => false

/-- The field search of `json.Unmarshal` for an object key: a field whose tag
is the key wins; failing that, the first field whose tag equals the key under
case folding. -/
def findField.go (key : String) : Option Field → List Field → Option Field
  | f, [] => f
  | f, ff :: rest =>
    if ff.tag = key then some ff
    else if f.isNone && equalFold ff.tag.data key.data then findField.go key (some ff) rest
    else findField.go key f rest

/-- The field `json.Unmarshal` decodes the member with this key into, if any. -/
def findField (key : String) : Option Field :=
  findField.go key none Field.all

/-- Decoding one JSON value into a field: the configuration afterwards, and
whether an `UnmarshalTypeError` was raised. `null` leaves a string, number or
boolean field as it is; a value of another JSON type than the field, a number
with a fraction or exponent, and an integer outside the range of the field
raise the error and leave the field as it is. -/
def store (c : ConsumerConfig) (f : Field) : Value → ConsumerConfig × Bool
  | .null => (c, false)
  | .str s => if f.kind = .string then (c.setString f s, false) else (c, true)
  | .bool b => if f.kind = .bool then (c.setBool f b, false) else (c, true)
  | .int n => if f.kind.holds n then (c.setInt f n, false) else (c, true)
  | .real => (c, true)
  | .arr _ => (c, true)
  | .obj _ => (c, true)
  | .unsupported => (c, true)

/-- The object loop of `json.Unmarshal` into a `*ConsumerConfig`: the members
are decoded in order; a member whose key matches no field is skipped; the first
`UnmarshalTypeError` is saved and decoding goes on. -/
def Unmarshal.object :
    List (String × Value) → ConsumerConfig × Option GoError → ConsumerConfig × Option GoError
  | [], st => st
  | (key, v) :: rest, (c, saved) =>
    match findField key with
    | none => Unmarshal.object rest (c, saved)
    | some f =>
      let r := store c f v
      Unmarshal.object rest
        (r.1, if r.2 then (if saved.isNone then some (.unmarshalTypeError f.tag) else saved) else saved)

/-- The function `json.Unmarshal` on the bytes of `Marshal` and a
`*ConsumerConfig`: the configuration after decoding and the saved error. -/
def Unmarshal (b : List (String × Value)) (v : ConsumerConfig) : ConsumerConfig × Option GoError :=
  Unmarshal.object b (v, none)

/-- The function `GetConsumerConfig` (the call to `glog.Info` writes a log line
and has no part in the result). -/
def GetConsumerConfig (config : GoMap) : Option ConsumerConfig × Option GoError :=
  match Marshal config with
  | .error err => (none, some err)
  | .ok b =>
    match Unmarshal b DefaultConsumerConfig with
    | (_, some err) => (none, some err)
    | (consumerConfig, none) => (some consumerConfig, none)

/-- The map update `m[k] = v`. -/
def GoMap.set (m : GoMap) (k : String) (v : Value) : GoMap :=
  (k, v) :: m.filter (fun e => e.1 ≠ k)

/-! ## The key normaliser as the specification words it -/

/-- A lowercase ASCII letter. -/
def isLowerLetter (c : Char) : Prop :=
  'a'.toNat ≤ c.toNat ∧ c.toNat ≤ 'z'.toNat

instance (c : Char) : Decidable (isLowerLetter c) := by
  unfold isLowerLetter; infer_instance

/-- A well-formed dotted key, as its segments: one or more non-empty segments
of lowercase ASCII letters. -/
def wellFormedSegments (segs : List (List Char)) : Prop :=
  segs ≠ [] ∧ ∀ seg ∈ segs, seg ≠ [] ∧ ∀ c ∈ seg, isLowerLetter c

/-- The segments joined by `.`: the external key. -/
def dottedKey (segs : List (List Char)) : String :=
  String.mk (List.intercalate ['.'] segs)

/-- A segment with its first letter upper-cased and the rest unchanged. -/
def capitalize : List Char → List Char
  | [] => []
  | c :: cs => c.toUpper :: cs

/-- The identifier the specification describes for a list of segments: every
segment capitalised, except that a final `id` is `ID` and a final `ms` is `MS`;
concatenated without separators. -/
def renderSegments : List (List Char) → List Char
  | [] => []
  | [last] =>
    if last = ['i', 'd'] then ['I', 'D']
    else if last = ['m', 's'] then ['M', 'S']
    else capitalize last
  | seg :: rest => capitalize seg ++ renderSegments rest

/-- Unicode tables that know nothing above ASCII: title-casing leaves such a
code point as it is and none is a letter, a digit or a space. -/
def UnicodeTables.ascii : UnicodeTables :=
  { ToTitle := fun r => r
    IsLetter := fun _ => false
    IsDigit := fun _ => false
    IsSpace := fun _ => false }

/-! ## Values and keys, as the claims about `GetConsumerConfig` sort them -/

/-- A value of the JSON type of the field that the field can hold: a string for
a string field, a boolean for a boolean field, an integer within the range of
the field for a numeric field. -/
def Value.fits : Value → Field → Bool
  | .str _, f => f.kind = .string
  | .bool _, f => f.kind = .bool
  | .int n, f => f.kind.holds n
  | _, _ => false

/-- A value of a JSON type other than the type of the field: a string or a
boolean for a numeric field, a number for a string field, a string or a number
for a boolean field. -/
def Value.mismatches : Value → Field → Bool
  | .str _, f => f.kind ≠ .string
  | .bool _, f => f.kind ≠ .bool
  | .int _, f => f.kind = .string || f.kind = .bool
  | .real, f => f.kind = .string || f.kind = .bool
  | _, _ => false

/-- The fourteen external keys of `ConsumerConfig`. -/
def externalKeys : List String :=
  Field.all.map Field.tag

/-- A key that `json.Unmarshal` matches with no field: it equals none of the
fourteen tags, also under case folding. -/
def unmatched (k : String) : Prop :=
  ∀ f : Field, equalFold f.tag.data k.data = false

/-- The members of an object are in increasing key order. -/
def EntriesSorted (l : List (String × Value)) : Prop :=
  l.Pairwise (fun x y => stringLe x.1.data y.1.data = true)

/-- Whether `json.Unmarshal` finds a field for the key of the member. -/
def recognized (e : String × Value) : Bool :=
  (findField e.1).isSome

/-! ## Ownership of the defaults

`DefaultProducerConfig` is a package variable that holds a pointer to one
object, allocated when the package is initialised; `DefaultBrokerConfig()` and
`DefaultConsumerConfig()` allocate an object at every call. Pointers and the
objects they point to are made explicit here. -/

/-- The three roles. -/
inductive Role where
  | producer
  | consumer
  | broker
  deriving DecidableEq, Repr

/-- The contents of a heap object: a configuration record of one of the roles. -/
inductive Object where
  | producer (c : ProducerConfig)
  | consumer (c : ConsumerConfig)
  | broker (c : BrokerConfig)
  deriving DecidableEq, Repr

/-- A pointer: the index of an object in the heap. -/
abbrev Ptr := Nat

/-- The heap: the objects allocated so far, in allocation order. -/
structure Heap where
  objects : List Object
  deriving DecidableEq, Repr

/-- The expression `&T{...}`: a new object, at an address not used before. -/
def Heap.alloc (h : Heap) (o : Object) : Ptr × Heap :=
  (h.objects.length, { objects := h.objects ++ [o] })

/-- Reading the object a pointer points to. -/
def Heap.load (h : Heap) (p : Ptr) : Option Object :=
  h.objects.get? p

/-- Assigning to fields through a pointer: the object it points to is replaced
by the changed record. -/
def Heap.store (h : Heap) (p : Ptr) (o : Object) : Heap :=
  { objects := h.objects.set p o }

/-- The pointer held by the package variable `DefaultProducerConfig`: the
first object allocated. -/
def DefaultProducerConfig.ptr : Ptr := 0

/-- The heap after package initialisation: the one object of the initialiser
`&ProducerConfig{...}` of `DefaultProducerConfig`. -/
def Heap.init : Heap :=
  { objects := [.producer DefaultProducerConfig] }

/-- Obtaining the defaults of a role: the producer reads the package variable
`DefaultProducerConfig`, the consumer calls `DefaultConsumerConfig()` and the
broker calls `DefaultBrokerConfig()`. -/
def defaults : Role → Heap → Ptr × Heap
  | .producer, h => (DefaultProducerConfig.ptr, h)
  | .consumer, h => h.alloc (.consumer DefaultConsumerConfig)
  | .broker, h => h.alloc (.broker DefaultBrokerConfig)

/-! ## Validation of producer and consumer configurations -/

/-- C1: `ProducerConfig.checkValid` returns nil exactly when the bootstrap
servers are set, `MessageMaxCount` and `FlushIntervalMS` are positive and the
compression type is one of `none`, `gzip`, `snappy`, `lz4`. -/
theorem producer_checkValid_nil_iff (c : ProducerConfig) :
    c.checkValid = none ↔
      c.BootstrapServers ≠ "" ∧ 0 < c.MessageMaxCount ∧ 0 < c.FlushIntervalMS ∧
        (c.CompressionType = "none" ∨ c.CompressionType = "gzip" ∨
          c.CompressionType = "snappy" ∨ c.CompressionType = "lz4") := by
  unfold ProducerConfig.checkValid
  constructor
  · intro h
    split_ifs at h with h1 h2 h3 h4 h5 h6 h7
    · exact ⟨h1, not_le.mp h2, not_le.mp h3, Or.inl h4⟩
    · exact ⟨h1, not_le.mp h2, not_le.mp h3, Or.inr (Or.inl h5)⟩
    · exact ⟨h1, not_le.mp h2, not_le.mp h3, Or.inr (Or.inr (Or.inl h6))⟩
    · exact ⟨h1, not_le.mp h2, not_le.mp h3, Or.inr (Or.inr (Or.inr h7))⟩
  · rintro ⟨h1, h2, h3, h4⟩
    rw [if_neg h1, if_neg (not_le.mpr h2), if_neg (not_le.mpr h3)]
    rcases h4 with h | h | h | h <;> simp [h]

/-- C2: an invalid producer configuration gets the sentinel of the first
violated constraint, in the order bootstrap servers, message max count, flush
interval, compression type; the four sentinels are pairwise distinct. -/
theorem producer_checkValid_first_violation (c : ProducerConfig) :
    (c.BootstrapServers = "" → c.checkValid = some .bootstrapServersNotSet) ∧
    (c.BootstrapServers ≠ "" → c.MessageMaxCount ≤ 0 →
      c.checkValid = some .messageMaxCountError) ∧
    (c.BootstrapServers ≠ "" → 0 < c.MessageMaxCount → c.FlushIntervalMS ≤ 0 →
      c.checkValid = some .flushIntervalMSError) ∧
    (c.BootstrapServers ≠ "" → 0 < c.MessageMaxCount → 0 < c.FlushIntervalMS →
      ¬ (c.CompressionType = "none" ∨ c.CompressionType = "gzip" ∨
          c.CompressionType = "snappy" ∨ c.CompressionType = "lz4") →
      c.checkValid = some .unknownCompressionType) ∧
    [GoError.bootstrapServersNotSet, GoError.messageMaxCountError,
      GoError.flushIntervalMSError, GoError.unknownCompressionType].Nodup ∧
    [GoError.bootstrapServersNotSet.Error, GoError.messageMaxCountError.Error,
      GoError.flushIntervalMSError.Error, GoError.unknownCompressionType.Error].Nodup := by
  unfold ProducerConfig.checkValid
  refine ⟨?_, ?_, ?_, ?_, by decide, by decide⟩
  · intro h
    rw [if_pos h]
  · intro h1 h2
    rw [if_neg h1, if_pos h2]
  · intro h1 h2 h3
    rw [if_neg h1, if_neg (not_le.mpr h2), if_pos h3]
  · intro h1 h2 h3 h4
    rw [if_neg h1, if_neg (not_le.mpr h2), if_neg (not_le.mpr h3)]
    simp only [not_or] at h4
    rw [if_neg h4.1, if_neg h4.2.1, if_neg h4.2.2.1, if_neg h4.2.2.2]

/-- Witness for C2: a configuration that violates every constraint at once, and
one for each later constraint. -/
theorem producer_checkValid_first_violation_witness :
    ({ DefaultProducerConfig with
        MessageMaxCount := 0, FlushIntervalMS := -1, CompressionType := "zstd" }
      : ProducerConfig).checkValid = some .bootstrapServersNotSet ∧
    ({ DefaultProducerConfig with
        BootstrapServers := "h:9092", MessageMaxCount := 0, FlushIntervalMS := -1,
        CompressionType := "zstd" } : ProducerConfig).checkValid
      = some .messageMaxCountError ∧
    ({ DefaultProducerConfig with
        BootstrapServers := "h:9092", FlushIntervalMS := 0, CompressionType := "zstd" }
      : ProducerConfig).checkValid = some .flushIntervalMSError ∧
    ({ DefaultProducerConfig with BootstrapServers := "h:9092", CompressionType := "zstd" }
      : ProducerConfig).checkValid = some .unknownCompressionType :=
  ⟨(producer_checkValid_first_violation _).1 (by decide),
   (producer_checkValid_first_violation _).2.1 (by decide) (by decide),
   (producer_checkValid_first_violation _).2.2.1 (by decide) (by decide) (by decide),
   (producer_checkValid_first_violation _).2.2.2.1 (by decide) (by decide) (by decide)
     (by decide)⟩

/-- C3: `ConsumerConfig.checkValid` returns `bootstrapServersNotSet` when the
bootstrap servers are empty, whatever the group id is; `emptyGroupID` when they
are set and the group id is empty; and nil exactly when both are non-empty. -/
theorem consumer_checkValid_cases (c : ConsumerConfig) :
    (c.BootstrapServers = "" → c.checkValid = some .bootstrapServersNotSet) ∧
    (c.BootstrapServers ≠ "" → c.GroupID = "" → c.checkValid = some .emptyGroupID) ∧
    (c.checkValid = none ↔ c.BootstrapServers ≠ "" ∧ c.GroupID ≠ "") := by
  unfold ConsumerConfig.checkValid
  refine ⟨?_, ?_, ?_⟩
  · intro h
    rw [if_pos h]
  · intro h1 h2
    rw [if_neg h1, if_pos h2]
  · constructor
    · intro h
      split_ifs at h with h1 h2
      exact ⟨h1, h2⟩
    · rintro ⟨h1, h2⟩
      rw [if_neg h1, if_neg h2]

/-- Witness for C3: the two configurations of the specification, their other
fields at the defaults, and the case of both strings empty. -/
theorem consumer_checkValid_cases_witness :
    ({ DefaultConsumerConfig with BootstrapServers := "", GroupID := "g" }
      : ConsumerConfig).checkValid = some .bootstrapServersNotSet ∧
    ({ DefaultConsumerConfig with BootstrapServers := "", GroupID := "" }
      : ConsumerConfig).checkValid = some .bootstrapServersNotSet ∧
    ({ DefaultConsumerConfig with BootstrapServers := "h:9092", GroupID := "" }
      : ConsumerConfig).checkValid = some .emptyGroupID :=
  ⟨(consumer_checkValid_cases _).1 (by decide),
   (consumer_checkValid_cases _).1 (by decide),
   (consumer_checkValid_cases _).2.1 (by decide) (by decide)⟩

/-- C10: with the bootstrap servers set and every other field at the producer
defaults, `checkValid` returns nil for the compression types `none`, `gzip`,
`snappy`, `lz4` and `unknownCompressionType` for every other string. -/
theorem producer_default_compression (b s : String) (hb : b ≠ "") :
    ((s = "none" ∨ s = "gzip" ∨ s = "snappy" ∨ s = "lz4") →
      ({ DefaultProducerConfig with BootstrapServers := b, CompressionType := s }
        : ProducerConfig).checkValid = none) ∧
    (¬ (s = "none" ∨ s = "gzip" ∨ s = "snappy" ∨ s = "lz4") →
      ({ DefaultProducerConfig with BootstrapServers := b, CompressionType := s }
        : ProducerConfig).checkValid = some .unknownCompressionType) := by
  constructor
  · intro hs
    simp only [ProducerConfig.checkValid, DefaultProducerConfig, if_neg hb]
    rcases hs with h | h | h | h <;> simp [h]
  · intro hs
    simp only [not_or] at hs
    simp only [ProducerConfig.checkValid, DefaultProducerConfig, if_neg hb]
    simp [hs.1, hs.2.1, hs.2.2.1, hs.2.2.2]

/-- Witness for C10: `h:9092` with `zstd` is rejected and with `lz4` accepted. -/
theorem producer_default_compression_witness :
    ({ DefaultProducerConfig with BootstrapServers := "h:9092", CompressionType := "zstd" }
      : ProducerConfig).checkValid = some .unknownCompressionType ∧
    ({ DefaultProducerConfig with BootstrapServers := "h:9092", CompressionType := "lz4" }
      : ProducerConfig).checkValid = none :=
  ⟨(producer_default_compression "h:9092" "zstd" (by decide)).2 (by decide),
   (producer_default_compression "h:9092" "lz4" (by decide)).1 (by decide)⟩

/-! ## The key normaliser `convertKey` -/

theorem isSeparator_space (u : UnicodeTables) : isSeparator u ' ' = true := rfl

theorem isSeparator_lower (u : UnicodeTables) (c : Char) (h : isLowerLetter c) :
    isSeparator u c = false := by
  have ha : 'a'.toNat = 97 := rfl
  have hz : 'z'.toNat = 122 := rfl
  have h0 : '0'.toNat = 48 := rfl
  have h9 : '9'.toNat = 57 := rfl
  unfold isLowerLetter at h
  rw [ha, hz] at h
  unfold isSeparator
  rw [ha, hz, h0, h9]
  have h1 : c.toNat ≤ 0x7F := by omega
  have h2 : ¬ (48 ≤ c.toNat ∧ c.toNat ≤ 57) := by omega
  rw [if_pos h1, if_neg h2, if_pos h]

theorem ToTitle_lower (u : UnicodeTables) (c : Char) (h : isLowerLetter c) :
    ToTitle u c = c.toUpper := by
  have ha : 'a'.toNat = 97 := rfl
  have hz : 'z'.toNat = 122 := rfl
  have hA : 'A'.toNat = 65 := rfl
  unfold isLowerLetter at h
  rw [ha, hz] at h
  unfold ToTitle Char.toUpper
  rw [ha, hz, hA]
  have h1 : c.toNat ≤ 0x7F := by omega
  rw [if_pos h1, if_pos h]

theorem Title_go_lower (u : UnicodeTables) (cs : List Char) :
    ∀ prev : Char, isLowerLetter prev → (∀ c ∈ cs, isLowerLetter c) → Title.go u prev cs = cs := by
  induction cs with
  | nil => intro _ _ _; rfl
  | cons c cs ih =>
    intro prev hp hcs
    have hc : isLowerLetter c := hcs c (List.mem_cons_self _ _)
    rw [Title.go, isSeparator_lower u prev hp, ih c hc (fun d hd => hcs d (List.mem_cons_of_mem _ hd))]
    simp

theorem Title_lower (u : UnicodeTables) (seg : List Char) (h : ∀ c ∈ seg, isLowerLetter c) :
    Title u seg = capitalize seg := by
  cases seg with
  | nil => rfl
  | cons c cs =>
    have hc : isLowerLetter c := h c (List.mem_cons_self _ _)
    rw [Title, Title.go, isSeparator_space, Title_go_lower u cs c hc
      (fun d hd => h d (List.mem_cons_of_mem _ hd)), if_pos rfl, ToTitle_lower u c hc]
    rfl

theorem Split_no_sep (sep : Char) (seg : List Char) (h : sep ∉ seg) : Split sep seg = [seg] := by
  induction seg with
  | nil => rfl
  | cons c cs ih =>
    have hc : c ≠ sep := fun e => h (e ▸ List.mem_cons_self _ _)
    have hcs : sep ∉ cs := fun e => h (List.mem_cons_of_mem _ e)
    rw [Split, if_neg hc, ih hcs]

theorem Split_append_sep (sep : Char) (seg rest : List Char) (h : sep ∉ seg) :
    Split sep (seg ++ sep :: rest) = seg :: Split sep rest := by
  induction seg with
  | nil => simp [Split]
  | cons c cs ih =>
    have hc : c ≠ sep := fun e => h (e ▸ List.mem_cons_self _ _)
    have hcs : sep ∉ cs := fun e => h (List.mem_cons_of_mem _ e)
    rw [List.cons_append, Split, if_neg hc, ih hcs]

theorem intercalate_cons_cons (sep p q : List Char) (ps : List (List Char)) :
    List.intercalate sep (p :: q :: ps) = p ++ sep ++ List.intercalate sep (q :: ps) := by
  simp [List.intercalate, List.intersperse]

theorem Split_intercalate (sep : Char) (segs : List (List Char)) (hne : segs ≠ [])
    (h : ∀ seg ∈ segs, sep ∉ seg) : Split sep (List.intercalate [sep] segs) = segs := by
  induction segs with
  | nil => exact absurd rfl hne
  | cons p ps ih =>
    cases ps with
    | nil =>
      have : List.intercalate [sep] [p] = p := by simp [List.intercalate, List.intersperse]
      rw [this, Split_no_sep sep p (h p (List.mem_cons_self _ _))]
    | cons q qs =>
      rw [intercalate_cons_cons, List.append_assoc, List.singleton_append,
        Split_append_sep sep p _ (h p (List.mem_cons_self _ _)),
        ih (List.cons_ne_nil _ _) (fun s hs => h s (List.mem_cons_of_mem _ hs))]

theorem replaceLast_render (u : UnicodeTables) (segs : List (List Char)) (hne : segs ≠ [])
    (h : ∀ seg ∈ segs, ∀ c ∈ seg, isLowerLetter c) :
    (replaceLast segs).map (fun parts => Join (parts.map (Title u))) =
      some (renderSegments segs) := by
  induction segs with
  | nil => exact absurd rfl hne
  | cons p ps ih =>
    cases ps with
    | nil =>
      have hp := h p (List.mem_cons_self _ _)
      by_cases h1 : p = ['i', 'd']
      · subst h1; rfl
      · by_cases h2 : p = ['m', 's']
        · subst h2; rfl
        · simp [replaceLast, renderSegments, h1, h2, Join, Title_lower u p hp]
    | cons q qs =>
      have hp := h p (List.mem_cons_self _ _)
      have ih2 := ih (List.cons_ne_nil _ _) (fun s hs => h s (List.mem_cons_of_mem _ hs))
      rw [replaceLast]
      cases hr : replaceLast (q :: qs) with
      | none => rw [hr] at ih2; simp at ih2
      | some rest =>
        rw [hr] at ih2
        simp only [Option.map, Option.some.injEq] at ih2 ⊢
        rw [renderSegments, ← ih2, List.map_cons, Join, List.foldr_cons, Title_lower u p hp]
        · rfl
        · simp

/-- C4: on a key made of non-empty lowercase ASCII segments joined by `.`,
`convertKey` returns the segments capitalised and concatenated, a final `id` or
`ms` rendered `ID` or `MS` and a non-final one `Id` or `Ms`; the three keys of
the specification give `SessionTimeoutMS`, `ClientID` and `FetchMinBytes`. -/
theorem convertKey_wellFormed (u : UnicodeTables) (segs : List (List Char))
    (h : wellFormedSegments segs) :
    convertKey u (dottedKey segs) = some (String.mk (renderSegments segs)) ∧
    convertKey u "session.timeout.ms" = some "SessionTimeoutMS" ∧
    convertKey u "client.id" = some "ClientID" ∧
    convertKey u "fetch.min.bytes" = some "FetchMinBytes" := by
  refine ⟨?_, rfl, rfl, rfl⟩
  obtain ⟨hne, hseg⟩ := h
  have hdot : ∀ seg ∈ segs, '.' ∉ seg := by
    intro seg hs hmem
    have hl := (hseg seg hs).2 '.' hmem
    exact absurd hl (by decide)
  have hr := replaceLast_render u segs hne (fun seg hs => (hseg seg hs).2)
  unfold convertKey dottedKey
  rw [Split_intercalate '.' segs hne hdot]
  cases hp : replaceLast segs with
  | none => rw [hp] at hr; simp at hr
  | some parts =>
    rw [hp] at hr
    simp only [Option.map, Option.some.injEq] at hr
    simp only [hr]

/-- Witness for C4: the key `id.ms.id`, whose non-final `id` and `ms` become
`Id` and `Ms` and whose final `id` becomes `ID`. -/
theorem convertKey_wellFormed_witness :
    wellFormedSegments [['i', 'd'], ['m', 's'], ['i', 'd']] ∧
    convertKey UnicodeTables.ascii "id.ms.id" = some "IdMsID" :=
  ⟨by unfold wellFormedSegments; decide,
   (convertKey_wellFormed UnicodeTables.ascii [['i', 'd'], ['m', 's'], ['i', 'd']]
      (by unfold wellFormedSegments; decide)).1⟩

/-- C5, as the code has it: for twelve of the fourteen fields of
`ConsumerConfig`, all but `FromBeginning` and `OffsetsStorage`, `convertKey`
maps the `json` tag to the Go identifier of the field; the tag `frombeginning`
gives `Frombeginning` and the tag `offset.storage` gives `OffsetStorage`. -/
theorem convertKey_tags (u : UnicodeTables) (f : Field)
    (h1 : f ≠ .FromBeginning) (h2 : f ≠ .OffsetsStorage) :
    convertKey u f.tag = some f.name ∧
    convertKey u Field.FromBeginning.tag = some "Frombeginning" ∧
    convertKey u Field.OffsetsStorage.tag = some "OffsetStorage" := by
  refine ⟨?_, rfl, rfl⟩
  cases f
  case FromBeginning => exact absurd rfl h1
  case OffsetsStorage => exact absurd rfl h2
  all_goals rfl

/-- Witness for C5 as amended: the field `SessionTimeoutMS`. -/
theorem convertKey_tags_witness :
    convertKey UnicodeTables.ascii "session.timeout.ms" = some "SessionTimeoutMS" :=
  (convertKey_tags UnicodeTables.ascii .SessionTimeoutMS (by decide) (by decide)).1

/-- Counterexample to C5 as stated: the tags of `OffsetsStorage` and
`FromBeginning` are not mapped to the identifiers of these fields, whatever the
Unicode tables are. -/
theorem convertKey_tags_counterexample :
    convertKey UnicodeTables.ascii Field.OffsetsStorage.tag ≠ some Field.OffsetsStorage.name ∧
    convertKey UnicodeTables.ascii Field.FromBeginning.tag ≠ some Field.FromBeginning.name ∧
    ¬ ∃ u : UnicodeTables, ∀ f ∈ Field.all, convertKey u f.tag = some f.name := by
  refine ⟨by decide, by decide, ?_⟩
  rintro ⟨u, hu⟩
  have h := hu .OffsetsStorage (by decide)
  have h2 : convertKey u Field.OffsetsStorage.tag = some "OffsetStorage" := rfl
  rw [h2] at h
  exact absurd h (by decide)

/-! ## The key order of `json.Marshal` -/

theorem stringLe_total (a : List Char) : ∀ b, stringLe a b = true ∨ stringLe b a = true := by
  induction a with
  | nil => intro b; left; cases b <;> rfl
  | cons x xs ih =>
    intro b
    cases b with
    | nil => right; rfl
    | cons y ys =>
      simp only [stringLe]
      rcases Nat.lt_trichotomy x.toNat y.toNat with h | h | h
      · left; simp [h]
      · simp only [h, lt_self_iff_false, if_false]
        simpa using ih ys
      · right; simp [h]

theorem stringLe_trans (a : List Char) :
    ∀ b c, stringLe a b = true → stringLe b c = true → stringLe a c = true := by
  induction a with
  | nil => intro b c _ _; cases c <;> rfl
  | cons x xs ih =>
    intro b c hab hbc
    cases b with
    | nil => simp [stringLe] at hab
    | cons y ys =>
      cases c with
      | nil => simp [stringLe] at hbc
      | cons z zs =>
        simp only [stringLe] at hab hbc ⊢
        split_ifs at hab hbc ⊢ <;> first | rfl | omega | exact ih ys zs hab hbc

theorem stringLe_antisymm (a : List Char) :
    ∀ b, stringLe a b = true → stringLe b a = true → a = b := by
  induction a with
  | nil => intro b _ hba; cases b with
    | nil => rfl
    | cons y ys => simp [stringLe] at hba
  | cons x xs ih =>
    intro b hab hba
    cases b with
    | nil => simp [stringLe] at hab
    | cons y ys =>
      simp only [stringLe] at hab hba
      split_ifs at hab hba <;> try omega
      have hxy : x = y := by
        apply Char.ext
        apply UInt32.ext
        have : x.toNat = y.toNat := by omega
        exact this
      rw [hxy, ih ys hab hba]

theorem mem_insertEntry (x e : String × Value) (l : List (String × Value)) :
    x ∈ insertEntry e l ↔ x = e ∨ x ∈ l := by
  induction l with
  | nil => simp [insertEntry]
  | cons y ys ih =>
    unfold insertEntry
    split_ifs
    · simp
    · simp only [List.mem_cons, ih]
      tauto

theorem mem_sortEntries (x : String × Value) (l : List (String × Value)) :
    x ∈ sortEntries l ↔ x ∈ l := by
  induction l with
  | nil => simp [sortEntries]
  | cons y ys ih => simp [sortEntries, mem_insertEntry, ih]

theorem insertEntry_sorted (e : String × Value) (l : List (String × Value))
    (h : EntriesSorted l) : EntriesSorted (insertEntry e l) := by
  induction l with
  | nil => simp [insertEntry, EntriesSorted]
  | cons x xs ih =>
    unfold EntriesSorted at h ⊢
    rw [List.pairwise_cons] at h
    unfold insertEntry
    split_ifs with hle
    · rw [List.pairwise_cons]
      refine ⟨?_, List.pairwise_cons.mpr h⟩
      intro y hy
      rcases List.mem_cons.mp hy with hy | hy
      · rw [hy]; exact hle
      · exact stringLe_trans _ _ _ hle (h.1 y hy)
    · rw [List.pairwise_cons]
      refine ⟨?_, ih h.2⟩
      intro y hy
      rcases (mem_insertEntry y e xs).mp hy with hy | hy
      · rw [hy]
        rcases stringLe_total e.1.data x.1.data with ht | ht
        · exact absurd ht hle
        · exact ht
      · exact h.1 y hy

theorem sortEntries_sorted (l : List (String × Value)) : EntriesSorted (sortEntries l) := by
  induction l with
  | nil => simp [sortEntries, EntriesSorted]
  | cons x xs ih => exact insertEntry_sorted x _ ih

theorem insertEntry_of_le (e : String × Value) (l : List (String × Value))
    (h : ∀ y ∈ l, stringLe e.1.data y.1.data = true) : insertEntry e l = e :: l := by
  cases l with
  | nil => rfl
  | cons x xs => rw [insertEntry, if_pos (h x (List.mem_cons_self _ _))]

theorem filter_insertEntry (p : String × Value → Bool) (e : String × Value)
    (l : List (String × Value)) (h : EntriesSorted l) :
    (insertEntry e l).filter p = if p e then insertEntry e (l.filter p) else l.filter p := by
  induction l with
  | nil => cases hp : p e <;> simp [insertEntry, hp]
  | cons x xs ih =>
    unfold EntriesSorted at h
    rw [List.pairwise_cons] at h
    have hins : insertEntry e (x :: xs) =
        if stringLe e.1.data x.1.data = true then e :: x :: xs else x :: insertEntry e xs := rfl
    rw [hins]
    split_ifs with hle hpe hpe
    · have hall : ∀ y ∈ (x :: xs).filter p, stringLe e.1.data y.1.data = true := by
        intro y hy
        rcases List.mem_cons.mp (List.mem_filter.mp hy).1 with hy | hy
        · rw [hy]; exact hle
        · exact stringLe_trans _ _ _ hle (h.1 y hy)
      rw [insertEntry_of_le e _ hall, List.filter_cons, if_pos hpe]
    · rw [List.filter_cons, if_neg hpe]
    · rw [List.filter_cons, ih h.2, if_pos hpe, List.filter_cons]
      cases hpx : p x
      · simp
      · simp [insertEntry, hle]
    · rw [List.filter_cons, ih h.2, if_neg hpe, List.filter_cons]

theorem filter_sortEntries (p : String × Value → Bool) (l : List (String × Value)) :
    (sortEntries l).filter p = sortEntries (l.filter p) := by
  induction l with
  | nil => rfl
  | cons x xs ih =>
    rw [sortEntries, filter_insertEntry p x _ (sortEntries_sorted xs), ih, List.filter_cons]
    cases hpx : p x <;> simp [sortEntries]

theorem perm_insertEntry (e : String × Value) (l : List (String × Value)) :
    (insertEntry e l).Perm (e :: l) := by
  induction l with
  | nil => exact List.Perm.refl _
  | cons x xs ih =>
    unfold insertEntry
    split_ifs
    · exact List.Perm.refl _
    · exact (List.Perm.cons x ih).trans (List.Perm.swap e x xs)

theorem perm_sortEntries (l : List (String × Value)) : (sortEntries l).Perm l := by
  induction l with
  | nil => exact List.Perm.refl _
  | cons x xs ih => exact (perm_insertEntry x _).trans (List.Perm.cons x ih)

theorem sortEntries_strict (l : List (String × Value)) (hnd : (l.map Prod.fst).Nodup) :
    (sortEntries l).Pairwise (fun x y => stringLe x.1.data y.1.data = true ∧ x.1 ≠ y.1) := by
  have h1 := sortEntries_sorted l
  have h2 : ((sortEntries l).map Prod.fst).Nodup :=
    ((perm_sortEntries l).map Prod.fst).nodup_iff.mpr hnd
  rw [List.Nodup, List.pairwise_map] at h2
  exact List.Pairwise.and h1 h2

theorem sortEntries_perm (l₁ l₂ : List (String × Value)) (hp : l₁.Perm l₂)
    (hnd : (l₁.map Prod.fst).Nodup) : sortEntries l₁ = sortEntries l₂ := by
  have hnd2 : (l₂.map Prod.fst).Nodup := (hp.map Prod.fst).nodup_iff.mp hnd
  have hperm : (sortEntries l₁).Perm (sortEntries l₂) :=
    ((perm_sortEntries l₁).trans hp).trans (perm_sortEntries l₂).symm
  have s1 := sortEntries_strict l₁ hnd
  have s2 := sortEntries_strict l₂ hnd2
  haveI : IsAntisymm (String × Value)
      (fun x y => stringLe x.1.data y.1.data = true ∧ x.1 ≠ y.1) :=
    ⟨fun x y hxy hyx =>
      absurd (String.ext (stringLe_antisymm _ _ hxy.1 hyx.1)) hxy.2⟩
  exact List.eq_of_perm_of_sorted hperm s1 s2

/-! ## The object loop of `json.Unmarshal` -/

theorem serializableMembers_iff (l : List (String × Value)) :
    serializableMembers l = true ↔ ∀ e ∈ l, e.2.serializable = true := by
  induction l with
  | nil => simp [serializableMembers]
  | cons x xs ih =>
    obtain ⟨k, v⟩ := x
    simp [serializableMembers, ih]

theorem findField_tag (f : Field) : findField f.tag = some f := by
  cases f <;> decide

theorem equalFold_tag_self (f : Field) : equalFold f.tag.data f.tag.data = true := by
  cases f <;> decide

theorem findField_unmatched (k : String) (hk : unmatched k) : findField k = none := by
  have hne : ∀ f : Field, f.tag ≠ k := by
    intro f hf
    have h1 := hk f
    rw [← hf, equalFold_tag_self] at h1
    exact absurd h1 (by decide)
  have e1 := hne .BootstrapServers
  have e2 := hne .ClientID
  have e3 := hne .GroupID
  have e4 := hne .SessionTimeoutMS
  have e5 := hne .FetchMaxWaitMS
  have e6 := hne .FetchMaxBytes
  have e7 := hne .FetchMinBytes
  have e8 := hne .FromBeginning
  have e9 := hne .AutoCommit
  have e10 := hne .CommitAfterFetch
  have e11 := hne .AutoCommitIntervalMS
  have e12 := hne .OffsetsStorage
  have e13 := hne .ConnectTimeoutMS
  have e14 := hne .TimeoutMS
  simp only [findField, Field.all, findField.go, if_neg e1, if_neg e2, if_neg e3, if_neg e4,
    if_neg e5, if_neg e6, if_neg e7, if_neg e8, if_neg e9, if_neg e10, if_neg e11, if_neg e12,
    if_neg e13, if_neg e14, hk _, Bool.and_false, Bool.false_eq_true, if_false]

theorem object_saved (l : List (String × Value)) :
    ∀ st : ConsumerConfig × Option GoError, st.2 ≠ none → (Unmarshal.object l st).2 ≠ none := by
  induction l with
  | nil => intro st h; exact h
  | cons e es ih =>
    intro st h
    obtain ⟨k, v⟩ := e
    obtain ⟨c, saved⟩ := st
    unfold Unmarshal.object
    cases hf : findField k with
    | none => exact ih _ h
    | some f =>
      apply ih
      cases saved with
      | none => exact absurd rfl h
      | some err => simp

theorem object_error_of_mem (l : List (String × Value)) (k : String) (v : Value) (f : Field)
    (hf : findField k = some f) (hbad : ∀ c : ConsumerConfig, (store c f v).2 = true) :
    (k, v) ∈ l → ∀ st : ConsumerConfig × Option GoError, (Unmarshal.object l st).2 ≠ none := by
  induction l with
  | nil => intro h; simp at h
  | cons e es ih =>
    intro hmem st
    obtain ⟨c, saved⟩ := st
    rcases List.mem_cons.mp hmem with h | h
    · subst h
      simp only [Unmarshal.object, hf, hbad c]
      apply object_saved
      cases saved <;> simp
    · obtain ⟨k2, v2⟩ := e
      unfold Unmarshal.object
      cases findField k2 with
      | none => exact ih h _
      | some g => exact ih h _

theorem store_mismatch (f : Field) (v : Value) (hv : v.mismatches f = true) (c : ConsumerConfig) :
    (store c f v).2 = true := by
  cases v <;> simp [Value.mismatches] at hv <;> cases f <;>
    simp [Field.kind] at hv <;> simp [store, Field.kind, Kind.holds]

theorem object_filter (l : List (String × Value)) :
    ∀ st : ConsumerConfig × Option GoError,
      Unmarshal.object l st = Unmarshal.object (l.filter recognized) st := by
  induction l with
  | nil => intro st; rfl
  | cons e es ih =>
    intro st
    obtain ⟨k, v⟩ := e
    obtain ⟨c, saved⟩ := st
    cases hf : findField k with
    | none =>
      have hr : recognized (k, v) = false := by simp [recognized, hf]
      rw [List.filter_cons, hr]
      simp only [Unmarshal.object, hf]
      exact ih _
    | some f =>
      have hr : recognized (k, v) = true := by simp [recognized, hf]
      rw [List.filter_cons, hr]
      simp only [Unmarshal.object, hf, if_true]
      exact ih _

theorem GetConsumerConfig_filter (m : GoMap) (hm : serializableMembers m = true) :
    GetConsumerConfig m =
      match Unmarshal.object (sortEntries (m.filter recognized)) (DefaultConsumerConfig, none) with
      | (_, some err) => (none, some err)
      | (consumerConfig, none) => (some consumerConfig, none) := by
  simp only [GetConsumerConfig, Marshal, hm, if_true, Unmarshal]
  rw [object_filter, filter_sortEntries]

theorem GetConsumerConfig_error_nil (m : GoMap) :
    (GetConsumerConfig m).2 ≠ none → (GetConsumerConfig m).1 = none := by
  unfold GetConsumerConfig
  cases Marshal m with
  | error err => intro _; rfl
  | ok b =>
    simp only
    rcases Unmarshal b DefaultConsumerConfig with ⟨c, _ | err⟩
    · intro h; exact absurd rfl h
    · intro _; rfl

/-! ## The override merger `GetConsumerConfig` -/

/-- C6: the mapping with `bootstrap.servers` set to a non-empty string `b`,
`group.id` to a non-empty string `g` and `session.timeout.ms` to an integer `t`
of the int32 range, its entries in any order, gives no error and the default
configuration with these three fields replaced; `FetchMinBytes` is still 1 and
the configuration passes `checkValid`. -/
theorem GetConsumerConfig_endToEnd (b g : String) (t : Int) (m : GoMap)
    (hb : b ≠ "") (hg : g ≠ "") (ht : -2147483648 ≤ t ∧ t ≤ 2147483647)
    (hm : m.Perm [("bootstrap.servers", .str b), ("group.id", .str g),
      ("session.timeout.ms", .int t)]) :
    GetConsumerConfig m =
      (some { DefaultConsumerConfig with
          BootstrapServers := b, GroupID := g, SessionTimeoutMS := t }, none) ∧
    ({ DefaultConsumerConfig with
        BootstrapServers := b, GroupID := g, SessionTimeoutMS := t } : ConsumerConfig).FetchMinBytes
      = 1 ∧
    ({ DefaultConsumerConfig with
        BootstrapServers := b, GroupID := g, SessionTimeoutMS := t } : ConsumerConfig).checkValid
      = none := by
  refine ⟨?_, rfl, ?_⟩
  · have hs : serializableMembers m = true := by
      rw [serializableMembers_iff]
      intro e he
      have he2 := hm.subset he
      simp only [List.mem_cons, List.mem_singleton, List.not_mem_nil, or_false] at he2
      rcases he2 with h | h | h <;> rw [h] <;> rfl
    have hsort : sortEntries m = [("bootstrap.servers", .str b), ("group.id", .str g),
        ("session.timeout.ms", .int t)] := by
      have hnd : (List.map Prod.fst [("bootstrap.servers", Value.str b), ("group.id", Value.str g),
          ("session.timeout.ms", Value.int t)]).Nodup := by
        simp only [List.map_cons, List.map_nil]
        decide
      have hp := sortEntries_perm _ _ hm.symm hnd
      rw [← hp]
      rfl
    have hf1 : findField "bootstrap.servers" = some .BootstrapServers := by decide
    have hf2 : findField "group.id" = some .GroupID := by decide
    have hf3 : findField "session.timeout.ms" = some .SessionTimeoutMS := by decide
    have hh : Kind.holds .int32 t = true := by simp [Kind.holds, ht.1, ht.2]
    simp only [GetConsumerConfig, Marshal, hs, if_true, Unmarshal, hsort, Unmarshal.object, hf1,
      hf2, hf3, store, Field.kind, hh]
    rfl
  · simp [ConsumerConfig.checkValid, hb, hg]

/-- Witness for C6: `h:9092`, `g1` and 20000, the entries given in another order
than the one `json.Marshal` writes them in. -/
theorem GetConsumerConfig_endToEnd_witness :
    GetConsumerConfig [("session.timeout.ms", .int 20000), ("bootstrap.servers", .str "h:9092"),
        ("group.id", .str "g1")] =
      (some { DefaultConsumerConfig with
          BootstrapServers := "h:9092", GroupID := "g1", SessionTimeoutMS := 20000 }, none) ∧
    ({ DefaultConsumerConfig with
        BootstrapServers := "h:9092", GroupID := "g1", SessionTimeoutMS := 20000 }
      : ConsumerConfig).FetchMinBytes = 1 ∧
    ({ DefaultConsumerConfig with
        BootstrapServers := "h:9092", GroupID := "g1", SessionTimeoutMS := 20000 }
      : ConsumerConfig).checkValid = none :=
  GetConsumerConfig_endToEnd "h:9092" "g1" 20000
    [("session.timeout.ms", .int 20000), ("bootstrap.servers", .str "h:9092"),
      ("group.id", .str "g1")]
    (by decide) (by decide) (by decide)
    (List.perm_append_comm :
      List.Perm ([("session.timeout.ms", Value.int 20000)] ++
          [("bootstrap.servers", Value.str "h:9092"), ("group.id", Value.str "g1")])
        ([("bootstrap.servers", Value.str "h:9092"), ("group.id", Value.str "g1")] ++
          [("session.timeout.ms", Value.int 20000)]))

/-- C7: a one-entry mapping from an external key to a value its field can hold
gives no error and a configuration with the value in that field and the
default in each of the thirteen others. -/
theorem GetConsumerConfig_single (f : Field) (v : Value) (hv : v.fits f = true) :
    ∃ c : ConsumerConfig,
      GetConsumerConfig [(f.tag, v)] = (some c, none) ∧
      c.get f = v ∧
      ∀ g : Field, g ≠ f → c.get g = DefaultConsumerConfig.get g := by
  refine ⟨(store DefaultConsumerConfig f v).1, ?_, ?_, ?_⟩
  · have hs : serializableMembers [(f.tag, v)] = true := by
      cases v <;> simp [Value.fits] at hv <;> simp [serializableMembers, Value.serializable]
    have hst : (store DefaultConsumerConfig f v).2 = false := by
      cases v <;> simp [Value.fits] at hv <;> simp [store, hv]
    simp [GetConsumerConfig, Marshal, hs, sortEntries, insertEntry, Unmarshal, Unmarshal.object,
      findField_tag, hst]
  · cases v <;> simp [Value.fits] at hv
    all_goals (cases f <;> simp [Field.kind, Kind.holds] at hv <;>
      simp [store, Field.kind, Kind.holds, hv, ConsumerConfig.get, ConsumerConfig.setString,
        ConsumerConfig.setBool, ConsumerConfig.setInt])
  · intro g hg
    cases v <;> simp [Value.fits] at hv
    all_goals (cases f <;> simp [Field.kind, Kind.holds] at hv <;>
      cases g <;>
      first
      | exact absurd rfl hg
      | simp [store, Field.kind, Kind.holds, hv, ConsumerConfig.get, ConsumerConfig.setString,
          ConsumerConfig.setBool, ConsumerConfig.setInt])

/-- Witness for C7: the key `fetch.min.bytes` with the integer 7. -/
theorem GetConsumerConfig_single_witness :
    Value.fits (.int 7) .FetchMinBytes = true ∧
    ∃ c : ConsumerConfig,
      GetConsumerConfig [("fetch.min.bytes", .int 7)] = (some c, none) ∧
      c.get .FetchMinBytes = .int 7 ∧
      ∀ g : Field, g ≠ .FetchMinBytes → c.get g = DefaultConsumerConfig.get g :=
  ⟨by decide, GetConsumerConfig_single .FetchMinBytes (.int 7) (by decide)⟩

/-- C8, as the code has it: a key that matches none of the fourteen external
keys, also under the case folding of `json.Unmarshal`, is dropped: adding it
with a serializable value to a serializable mapping changes neither the
configuration nor the error that `GetConsumerConfig` returns; a serializable
mapping made only of such keys gives no error and `DefaultConsumerConfig()`. -/
theorem GetConsumerConfig_unmatched (m : GoMap) (k : String) (v : Value) (m2 : GoMap)
    (hm : serializableMembers m = true) (hk : unmatched k) (hv : v.serializable = true)
    (hm2 : serializableMembers m2 = true) (hk2 : ∀ e ∈ m2, unmatched e.1) :
    GetConsumerConfig (m.set k v) = GetConsumerConfig m ∧
    GetConsumerConfig m2 = (some DefaultConsumerConfig, none) := by
  constructor
  · have hset : serializableMembers (m.set k v) = true := by
      rw [serializableMembers_iff] at hm ⊢
      intro e he
      rcases List.mem_cons.mp he with he | he
      · rw [he]; exact hv
      · exact hm e (List.mem_filter.mp he).1
    have hfil : (m.set k v).filter recognized = m.filter recognized := by
      have hrk : recognized (k, v) = false := by simp [recognized, findField_unmatched k hk]
      rw [GoMap.set, List.filter_cons, hrk, List.filter_filter]
      simp only [Bool.false_eq_true, if_false]
      apply List.filter_congr
      intro e _
      cases hre : recognized e with
      | false => simp
      | true =>
        have hne : e.1 ≠ k := by
          intro h
          rw [recognized, h, findField_unmatched k hk] at hre
          exact absurd hre (by decide)
        simp [hne]
    rw [GetConsumerConfig_filter _ hset, GetConsumerConfig_filter _ hm, hfil]
  · have hfil : m2.filter recognized = [] := by
      rw [List.filter_eq_nil_iff]
      intro e he
      simp [recognized, findField_unmatched e.1 (hk2 e he)]
    rw [GetConsumerConfig_filter _ hm2, hfil]
    rfl

/-- Witness for C8 as amended: the key `zookeeper.connect` added to a mapping
that sets the group id. -/
theorem GetConsumerConfig_unmatched_witness :
    GetConsumerConfig [("zookeeper.connect", .str "z:2181"), ("group.id", .str "g1")]
      = GetConsumerConfig [("group.id", .str "g1")] ∧
    GetConsumerConfig [("zookeeper.connect", .str "z:2181"), ("topic", .arr [.int 1, .null])]
      = (some DefaultConsumerConfig, none) :=
  GetConsumerConfig_unmatched [("group.id", .str "g1")] "zookeeper.connect" (.str "z:2181")
    [("zookeeper.connect", .str "z:2181"), ("topic", .arr [.int 1, .null])]
    (by decide) (by intro f; cases f <;> decide) (by decide) (by decide)
    (by
      intro e he f
      simp only [List.mem_cons, List.mem_singleton, List.not_mem_nil, or_false] at he
      rcases he with he | he <;> subst he <;> cases f <;> decide)

/-- Counterexample to C8 as stated: `GROUP.ID` is not one of the fourteen
external keys, yet `json.Unmarshal` decodes it into the field `GroupID`. -/
theorem GetConsumerConfig_unmatched_counterexample :
    "GROUP.ID" ∉ externalKeys ∧
    serializableMembers [] = true ∧
    Value.serializable (.str "x") = true ∧
    GetConsumerConfig (GoMap.set [] "GROUP.ID" (.str "x")) ≠ GetConsumerConfig [] ∧
    GetConsumerConfig [("GROUP.ID", .str "x")]
      = (some { DefaultConsumerConfig with GroupID := "x" }, none) ∧
    GetConsumerConfig (GoMap.set [] "GROUP.ID" (.int 1)) = (none, some (.unmarshalTypeError "group.id")) := by
  decide

/-- C9: a mapping that gives an external key a value of another JSON type than
its field (a string or boolean for a numeric field, a number for a string
field, a string or number for a boolean field) makes `GetConsumerConfig` return
a non-nil error; and whenever `GetConsumerConfig` returns a non-nil error, the
configuration it returns is nil. -/
theorem GetConsumerConfig_mismatch (m : GoMap) (f : Field) (v : Value) (m2 : GoMap)
    (hmem : (f.tag, v) ∈ m) (hv : v.mismatches f = true) :
    (GetConsumerConfig m).2 ≠ none ∧ (GetConsumerConfig m).1 = none ∧
    ((GetConsumerConfig m2).2 ≠ none → (GetConsumerConfig m2).1 = none) := by
  have herr : (GetConsumerConfig m).2 ≠ none := by
    unfold GetConsumerConfig Marshal
    split_ifs with hs
    · have hobj := object_error_of_mem (sortEntries m) f.tag v f (findField_tag f)
        (store_mismatch f v hv) ((mem_sortEntries _ _).mpr hmem) (DefaultConsumerConfig, none)
      simp only [Unmarshal]
      rcases hu : Unmarshal.object (sortEntries m) (DefaultConsumerConfig, none) with ⟨c, _ | err⟩
      · rw [hu] at hobj; exact absurd rfl hobj
      · simp
    · simp
  exact ⟨herr, GetConsumerConfig_error_nil m herr, GetConsumerConfig_error_nil m2⟩

/-- Witness for C9: a string for `session.timeout.ms` beside a valid group id. -/
theorem GetConsumerConfig_mismatch_witness :
    GetConsumerConfig [("group.id", .str "g1"), ("session.timeout.ms", .str "20000")]
      = (none, some (.unmarshalTypeError "session.timeout.ms")) ∧
    (GetConsumerConfig [("group.id", .str "g1"), ("session.timeout.ms", .str "20000")]).2 ≠ none :=
  ⟨by decide,
   (GetConsumerConfig_mismatch [("group.id", .str "g1"), ("session.timeout.ms", .str "20000")]
      .SessionTimeoutMS (.str "20000") [] (by simp [Field.tag]) (by decide)).1⟩

/-! ## The defaults and their ownership -/

/-- C11: `DefaultConsumerConfig()` returns exactly the documented values;
`FetchMaxBytes` is `10 * 1024 * 1024 = 10485760`, which an `int32` holds. -/
theorem DefaultConsumerConfig_values :
    DefaultConsumerConfig =
      { BootstrapServers := ""
        ClientID := "healer"
        GroupID := ""
        SessionTimeoutMS := 30000
        FetchMaxWaitMS := 100
        FetchMaxBytes := 10485760
        FetchMinBytes := 1
        FromBeginning := false
        AutoCommit := true
        CommitAfterFetch := false
        AutoCommitIntervalMS := 5000
        OffsetsStorage := 1
        ConnectTimeoutMS := 30000
        TimeoutMS := 60000 } ∧
    Field.FetchMaxBytes.kind = .int32 ∧
    Kind.holds .int32 DefaultConsumerConfig.FetchMaxBytes = true ∧
    DefaultConsumerConfig.FetchMaxBytes % 2 ^ 32 = 10485760 := by
  refine ⟨by decide, rfl, by decide, by decide⟩

/-- C12: `DefaultProducerConfig` holds exactly the documented producer
defaults, with `BootstrapServers` empty, and `DefaultBrokerConfig()` returns
connect timeout 60000, timeout 30000 and a per-API list of length 0. -/
theorem DefaultProducerConfig_DefaultBrokerConfig_values :
    DefaultProducerConfig =
      { BootstrapServers := ""
        ClientID := "healer"
        Acks := 1
        CompressionType := "none"
        BatchSize := 16384
        MessageMaxCount := 1024
        FlushIntervalMS := 200
        MetadataMaxAgeMS := 300000
        FetchTopicMetaDataRetrys := 3
        ConnectionsMaxIdleMS := 540000
        Retries := 0
        RequestTimeoutMS := 30000 } ∧
    DefaultBrokerConfig =
      { ConnectTimeoutMS := 60000
        TimeoutMS := 30000
        TimeoutMSForEachAPI := [] } ∧
    DefaultBrokerConfig.TimeoutMSForEachAPI.length = 0 := by
  refine ⟨by decide, by decide, rfl⟩

theorem alloc_twice_independent (h : Heap) (d o : Object) :
    ((h.alloc d).2.alloc d).2.load (h.alloc d).1 = some d ∧
    ((h.alloc d).2.alloc d).2.load ((h.alloc d).2.alloc d).1 = some d ∧
    (h.alloc d).1 ≠ ((h.alloc d).2.alloc d).1 ∧
    (((h.alloc d).2.alloc d).2.store (h.alloc d).1 o).load ((h.alloc d).2.alloc d).1 = some d ∧
    ((((h.alloc d).2.alloc d).2.store (h.alloc d).1 o).alloc d).2.load
      ((((h.alloc d).2.alloc d).2.store (h.alloc d).1 o).alloc d).1 = some d := by
  simp only [Heap.alloc, Heap.load, Heap.store, List.get?_eq_getElem?, List.length_append,
    List.length_singleton, List.append_assoc, List.singleton_append]
  have e0 : (h.objects ++ [d, d])[h.objects.length]? = some d := by
    rw [List.getElem?_append_right (le_refl _)]; simp
  have e1 : (h.objects ++ [d, d])[h.objects.length + 1]? = some d := by
    rw [List.getElem?_append_right (Nat.le_add_right _ _)]; simp
  have es : (h.objects ++ [d, d]).set h.objects.length o = h.objects ++ [o, d] := by
    rw [List.set_append_right _ _ (le_refl _)]; simp
  have e2 : (h.objects ++ [o, d])[h.objects.length + 1]? = some d := by
    rw [List.getElem?_append_right (Nat.le_add_right _ _)]; simp
  have e3 : (h.objects ++ [o, d] ++ [d])[(h.objects ++ [o, d]).length]? = some d := by
    rw [List.getElem?_append_right (le_refl _)]; simp
  refine ⟨e0, e1, by simp, ?_, ?_⟩
  · rw [es]; exact e2
  · rw [es]; exact e3

/-- C13: the consumer and broker defaults are independently owned: two
retrievals give distinct objects with the default fields, and overwriting the
first changes neither the second nor a later retrieval. The producer defaults
are not: both retrievals give the pointer held by `DefaultProducerConfig`, and
setting `MessageMaxCount` to 0 through the first is observed through the
second and by every later retrieval. -/
theorem defaults_ownership :
    (∀ (h : Heap) (o : Object),
      (defaults .consumer (defaults .consumer h).2).2.load (defaults .consumer h).1
        = some (.consumer DefaultConsumerConfig) ∧
      (defaults .consumer (defaults .consumer h).2).2.load
          (defaults .consumer (defaults .consumer h).2).1
        = some (.consumer DefaultConsumerConfig) ∧
      ((defaults .consumer (defaults .consumer h).2).2.store (defaults .consumer h).1 o).load
          (defaults .consumer (defaults .consumer h).2).1
        = some (.consumer DefaultConsumerConfig) ∧
      (defaults .consumer
          ((defaults .consumer (defaults .consumer h).2).2.store (defaults .consumer h).1 o)).2.load
        (defaults .consumer
          ((defaults .consumer (defaults .consumer h).2).2.store (defaults .consumer h).1 o)).1
        = some (.consumer DefaultConsumerConfig)) ∧
    (∀ (h : Heap) (o : Object),
      (defaults .broker (defaults .broker h).2).2.load (defaults .broker h).1
        = some (.broker DefaultBrokerConfig) ∧
      (defaults .broker (defaults .broker h).2).2.load
          (defaults .broker (defaults .broker h).2).1
        = some (.broker DefaultBrokerConfig) ∧
      ((defaults .broker (defaults .broker h).2).2.store (defaults .broker h).1 o).load
          (defaults .broker (defaults .broker h).2).1
        = some (.broker DefaultBrokerConfig) ∧
      (defaults .broker
          ((defaults .broker (defaults .broker h).2).2.store (defaults .broker h).1 o)).2.load
        (defaults .broker
          ((defaults .broker (defaults .broker h).2).2.store (defaults .broker h).1 o)).1
        = some (.broker DefaultBrokerConfig)) ∧
    (defaults .producer Heap.init).1 = (defaults .producer (defaults .producer Heap.init).2).1 ∧
    (defaults .producer (defaults .producer Heap.init).2).2.load
        (defaults .producer (defaults .producer Heap.init).2).1
      = some (.producer DefaultProducerConfig) ∧
    ((defaults .producer (defaults .producer Heap.init).2).2.store
        (defaults .producer Heap.init).1
        (.producer { DefaultProducerConfig with MessageMaxCount := 0 })).load
        (defaults .producer (defaults .producer Heap.init).2).1
      = some (.producer { DefaultProducerConfig with MessageMaxCount := 0 }) ∧
    (defaults .producer
        ((defaults .producer (defaults .producer Heap.init).2).2.store
          (defaults .producer Heap.init).1
          (.producer { DefaultProducerConfig with MessageMaxCount := 0 }))).2.load
      (defaults .producer
        ((defaults .producer (defaults .producer Heap.init).2).2.store
          (defaults .producer Heap.init).1
          (.producer { DefaultProducerConfig with MessageMaxCount := 0 }))).1
      ≠ some (.producer DefaultProducerConfig) := by
  refine ⟨?_, ?_, by decide, by decide, by decide, by decide⟩
  · intro h o
    have k := alloc_twice_independent h (.consumer DefaultConsumerConfig) o
    exact ⟨k.1, k.2.1, k.2.2.2.1, k.2.2.2.2⟩
  · intro h o
    have k := alloc_twice_independent h (.broker DefaultBrokerConfig) o
    exact ⟨k.1, k.2.1, k.2.2.2.1, k.2.2.2.2⟩

/-! ## Totality and collisions of `convertKey` -/

theorem Split_ne_nil (sep : Char) (s : List Char) : Split sep s ≠ [] := by
  cases s with
  | nil => simp [Split]
  | cons c cs =>
    unfold Split
    split_ifs
    · simp
    · cases Split sep cs <;> simp

theorem replaceLast_ne_none (parts : List (List Char)) (h : parts ≠ []) :
    replaceLast parts ≠ none := by
  induction parts with
  | nil => exact absurd rfl h
  | cons p ps ih =>
    cases ps with
    | nil =>
      unfold replaceLast
      split_ifs <;> simp
    | cons q qs =>
      have ih2 := ih (List.cons_ne_nil _ _)
      rw [replaceLast]
      cases hr : replaceLast (q :: qs) with
      | none => exact absurd hr ih2
      | some rest => simp

/-- C14: `convertKey` is total: for every string the split has at least one
part, so the index of the last part is in range and a string is returned; so it
is for the empty string, a string without `.`, and strings with a leading, a
trailing or a doubled `.`. -/
theorem convertKey_total (u : UnicodeTables) (s : String) :
    1 ≤ (Split '.' s.data).length ∧
    replaceLast (Split '.' s.data) ≠ none ∧
    (∃ r : String, convertKey u s = some r) ∧
    convertKey u "" = some "" ∧
    convertKey u "abc" = some "Abc" ∧
    convertKey u ".a" = some "A" ∧
    convertKey u "a." = some "A" ∧
    convertKey u "a..b" = some "AB" := by
  have h1 : Split '.' s.data ≠ [] := Split_ne_nil '.' s.data
  have h2 := replaceLast_ne_none _ h1
  refine ⟨?_, h2, ?_, rfl, rfl, rfl, rfl, rfl⟩
  · cases hs : Split '.' s.data with
    | nil => exact absurd hs h1
    | cons p ps => simp
  · unfold convertKey
    cases hr : replaceLast (Split '.' s.data) with
    | none => exact absurd hr h2
    | some parts => exact ⟨_, rfl⟩

/-- C19: `convertKey` is not injective on well-formed dotted lowercase keys:
`x.id` and `x.i.d` both give `XID`, and `a.ms` and `a.m.s` both give `AMS`. -/
theorem convertKey_not_injective (u : UnicodeTables) :
    wellFormedSegments [['x'], ['i', 'd']] ∧ wellFormedSegments [['x'], ['i'], ['d']] ∧
    dottedKey [['x'], ['i', 'd']] = "x.id" ∧ dottedKey [['x'], ['i'], ['d']] = "x.i.d" ∧
    "x.id" ≠ "x.i.d" ∧
    convertKey u "x.id" = some "XID" ∧ convertKey u "x.i.d" = some "XID" ∧
    wellFormedSegments [['a'], ['m', 's']] ∧ wellFormedSegments [['a'], ['m'], ['s']] ∧
    dottedKey [['a'], ['m', 's']] = "a.ms" ∧ dottedKey [['a'], ['m'], ['s']] = "a.m.s" ∧
    "a.ms" ≠ "a.m.s" ∧
    convertKey u "a.ms" = some "AMS" ∧ convertKey u "a.m.s" = some "AMS" ∧
    ¬ Function.Injective (convertKey u) := by
  refine ⟨by unfold wellFormedSegments; decide, by unfold wellFormedSegments; decide, rfl, rfl,
    by decide, rfl, rfl, by unfold wellFormedSegments; decide,
    by unfold wellFormedSegments; decide, rfl, rfl, by decide, rfl, rfl, ?_⟩
  intro hinj
  have h : convertKey u "x.id" = convertKey u "x.i.d" := rfl
  exact absurd (hinj h) (by decide)

/-! ## Validation of broker and consumer configurations -/

/-- C15: `BrokerConfig.checkValid` returns nil for every broker configuration,
negative timeouts and any per-API list included. -/
theorem broker_checkValid_nil (c : BrokerConfig) :
    c.checkValid = none ∧
    ({ ConnectTimeoutMS := -1, TimeoutMS := -60000, TimeoutMSForEachAPI := [0, -5, 7] }
      : BrokerConfig).checkValid = none := by
  constructor
  · cases c
    rfl
  · rfl

/-- C17: `ConsumerConfig.checkValid` depends only on `BootstrapServers` and
`GroupID`: two configurations that agree on these two fields get the same
result, whatever the other twelve fields hold. -/
theorem consumer_checkValid_depends (c₁ c₂ : ConsumerConfig)
    (hb : c₁.BootstrapServers = c₂.BootstrapServers) (hg : c₁.GroupID = c₂.GroupID) :
    c₁.checkValid = c₂.checkValid := by
  unfold ConsumerConfig.checkValid
  rw [hb, hg]

/-- Witness for C17: zero and negative timeouts and byte bounds are accepted
like the defaults. -/
theorem consumer_checkValid_depends_witness :
    ({ BootstrapServers := "h:9092", ClientID := "", GroupID := "g1", SessionTimeoutMS := 0,
        FetchMaxWaitMS := -1, FetchMaxBytes := -10, FetchMinBytes := 0, FromBeginning := true,
        AutoCommit := false, CommitAfterFetch := true, AutoCommitIntervalMS := -5000,
        OffsetsStorage := 0, ConnectTimeoutMS := 0, TimeoutMS := -1 } : ConsumerConfig).checkValid
      = ({ DefaultConsumerConfig with BootstrapServers := "h:9092", GroupID := "g1" }
          : ConsumerConfig).checkValid ∧
    ({ DefaultConsumerConfig with BootstrapServers := "h:9092", GroupID := "g1" }
      : ConsumerConfig).checkValid = none :=
  ⟨consumer_checkValid_depends _ _ (by decide) (by decide), by decide⟩

/-! ## `GetConsumerConfig` on out-of-range integers and on the empty mapping -/

/-- C16: an integer outside the int32 range under `session.timeout.ms`,
`fetch.max.wait.ms`, `fetch.max.bytes` or `fetch.min.bytes` makes
`GetConsumerConfig` return a non-nil error and a nil configuration;
`json.Unmarshal` leaves the field at its default and stores no wrapped value. -/
theorem GetConsumerConfig_int32_overflow (f : Field) (n : Int)
    (hf : f = .SessionTimeoutMS ∨ f = .FetchMaxWaitMS ∨ f = .FetchMaxBytes ∨ f = .FetchMinBytes)
    (hn : n < -2147483648 ∨ 2147483647 < n) :
    GetConsumerConfig [(f.tag, .int n)] = (none, some (.unmarshalTypeError f.tag)) ∧
    (Unmarshal [(f.tag, .int n)] DefaultConsumerConfig).1 = DefaultConsumerConfig := by
  have hk : f.kind = .int32 := by
    rcases hf with h | h | h | h <;> rw [h] <;> rfl
  have hh : f.kind.holds n = false := by
    rw [hk]
    simp only [Kind.holds, decide_eq_false_iff_not, not_and, not_le]
    intro h1
    omega
  have hst : store DefaultConsumerConfig f (.int n) = (DefaultConsumerConfig, true) := by
    simp [store, hh]
  constructor
  · simp [GetConsumerConfig, Marshal, serializableMembers, Value.serializable, sortEntries,
      insertEntry, Unmarshal, Unmarshal.object, findField_tag, hst]
  · simp [Unmarshal, Unmarshal.object, findField_tag, hst]

/-- Witness for C16: 4294967301 is 5 modulo 2^32; it is refused, not stored as 5. -/
theorem GetConsumerConfig_int32_overflow_witness :
    (4294967301 : Int) % 2 ^ 32 = 5 ∧
    GetConsumerConfig [("session.timeout.ms", .int 4294967301)]
      = (none, some (.unmarshalTypeError "session.timeout.ms")) ∧
    (Unmarshal [("session.timeout.ms", .int 4294967301)] DefaultConsumerConfig).1
      = DefaultConsumerConfig :=
  ⟨by decide,
   GetConsumerConfig_int32_overflow .SessionTimeoutMS 4294967301 (Or.inl rfl)
     (Or.inr (by decide))⟩

/-- C18: `GetConsumerConfig` does not validate its result: on the empty mapping
it returns no error and `DefaultConsumerConfig()`, on which `checkValid` returns
`bootstrapServersNotSet`. -/
theorem GetConsumerConfig_empty_not_validated :
    GetConsumerConfig [] = (some DefaultConsumerConfig, none) ∧
    DefaultConsumerConfig.checkValid = some .bootstrapServersNotSet := by
  refine ⟨by decide, by decide⟩

end Healer
